import Mathlib

/-!
# Verification of the classroom-discourse dashboard core (src/main.py)

Shallow embedding of the data-ingestion / aggregation pipeline of
`src/main.py`.  Spreadsheet cells are modelled by `Cell` (missing, text, or
numeric); a source file is its name, its column header and its rows; the
merged dataset is a `List Rec`.  pandas operations are modelled as follows:

* `pd.read_excel` (default `na_filter`/`keep_default_na`) — `readStr`/
  `readCell`: a text cell whose exact content is one of pandas' default
  `STR_NA_VALUES` (among them `""`, `"nan"`, `"NaN"`) is converted to a
  missing value at read time.
* `astype("string").str.strip()` — `Option.map strTrim` (missing cells
  stay missing, present cells are trimmed).
* `pd.to_numeric(…, errors="coerce")` — `toNumeric` (numeric cells pass
  through, text cells are parsed as decimal numbers, anything else is
  missing).  Float values are idealized as rationals.
* `sort_values(by=["lesson_id", "Turn_num"])` — with several keys pandas
  uses `np.lexsort`, a stable sort with `na_position="last"`; modelled as a
  stable `List.insertionSort` by the same key (any two stable sorts by one
  key agree).
* `Series.value_counts()` — the distinct present values with their counts,
  sorted by descending count and truncated downstream by `head(10)`.
  pandas does NOT specify the order of tied counts (hash-bucket key order
  followed by the default unstable quicksort); the model must be a
  function, so it fixes one concrete refinement of that behaviour
  (first-appearance key order, stable descending sort).  Only
  tie-order-insensitive properties (emptiness, length, membership, count
  values) are proved about it.
* `Series.apply(get_role)` on the `Speaker` column — `get_role` itself is
  total on `None`/strings, but a missing cell of the `string` dtype is
  `pd.NA`, whose truth test in `speaker or ""` raises
  `TypeError("boolean value of NA is ambiguous")`; the load models this as
  a `typeError` failure whenever any speaker cell is missing.
* `pd.crosstab` — drops pairs in which either coordinate is missing, rows
  and columns are the sorted distinct remaining labels.
* a missing float cell (NaN) — `Option.none`, so `fillna(0)` is `Option.getD 0`.
* `df[cols]` on a frame lacking some of `cols` — a `KeyError` listing the
  missing labels; `pd.concat([])` — a `ValueError`; both modelled in
  `load_and_merge_xlsx` by the `Except` monad.
-/

namespace EducDemo

/-- One spreadsheet cell as pandas reads it: an empty cell (`NaN`),
a text cell, or a numeric cell (floats idealized as rationals). -/
inductive Cell where
  | na : Cell
  | str : String → Cell
  | num : ℚ → Cell
deriving DecidableEq

/-- One raw row of a source table, restricted to the seven required columns
(`REQUIRED_COLS`); text columns carry `none` for an empty cell. -/
structure Row where
  TimeStamp : Cell
  Turn : Cell
  Speaker : Option String
  Sentence : Option String
  Teacher_Tag : Option String
  Student_Tag : Option String
  DialogAct : Option String
deriving DecidableEq

/-- One discovered `.xlsx` source file: its base name (as returned by
`os.path.basename`), the columns of the frame `pd.read_excel` produces,
and its rows. -/
structure SourceFile where
  name : String
  cols : List String
  rows : List Row
deriving DecidableEq

/-- `REQUIRED_COLS` of src/main.py. -/
def REQUIRED_COLS : List String :=
  ["TimeStamp", "Turn", "Speaker", "Sentence",
   "Teacher_Tag", "Student_Tag", "DialogAct"]

/-- `needle.isPrefixOf hay` on raw character lists (used to embed the Python
substring test). -/
def startsWithL : List Char → List Char → Bool
  | [], _ => true
  | _ :: _, [] => false
  | a :: as, b :: bs => a == b && startsWithL as bs

/-- Python `needle in hay`: contiguous-substring containment on characters. -/
def hasSub (needle : List Char) : List Char → Bool
  | [] => startsWithL needle []
  | b :: t => startsWithL needle (b :: t) || hasSub needle t

/-- Python `str.strip()`: drop leading and trailing whitespace.
(Implemented on the character list so that it evaluates in the kernel;
`String.trim` has the same meaning but is defined by position recursion.) -/
def strTrim (s : String) : String :=
  ⟨((s.data.dropWhile Char.isWhitespace).reverse.dropWhile Char.isWhitespace).reverse⟩

/-- Python `str.lower()` (on the ASCII range relevant here). -/
def strLower (s : String) : String :=
  ⟨s.data.map Char.toLower⟩

/-- `get_role` of src/main.py.  `speaker or ""` turns an absent (`None`)
label into `""` (and leaves every string unchanged up to the irrelevant
`"" or "" = ""` case); then the label is stripped, lower-cased and matched. -/
def get_role (speaker : Option String) : String :=
  let s := strLower (strTrim (speaker.getD ""))
  if s = "t" ∨ s = "teacher" ∨ s = "instructor" then "teacher"
  else if hasSub "teacher".data s.data then "teacher"
  else "student"

/-- Value of a decimal digit. -/
def digitVal (c : Char) : ℕ := c.toNat - 48

/-- Are all characters decimal digits? -/
def allDigits (l : List Char) : Bool := l.all (fun c => c.isDigit)

/-- Natural number denoted by a digit string. -/
def digitsToNat : List Char → ℕ
  | [] => 0
  | c :: t => digitVal c * 10 ^ t.length + digitsToNat t

/-- Parse an unsigned decimal numeral (`"12"`, `"3.5"`, `"3."`, `".5"`). -/
def parseUnsigned (l : List Char) : Option ℚ :=
  match l.splitOn '.' with
  | [ds] => if ds ≠ [] ∧ allDigits ds then some (digitsToNat ds) else none
  | [ds, fs] =>
      if (ds ≠ [] ∨ fs ≠ []) ∧ allDigits ds ∧ allDigits fs then
        some ((digitsToNat ds : ℚ) + (digitsToNat fs : ℚ) / 10 ^ fs.length)
      else none
  | _ => none

/-- Numeric parse of a text cell, as `pd.to_numeric(errors="coerce")`
accepts it: surrounding whitespace ignored, optional sign, decimal numeral;
anything else coerces to missing. -/
def parseNum (s : String) : Option ℚ :=
  match (strTrim s).data with
  | [] => none
  | '-' :: t => (parseUnsigned t).map (fun q => -q)
  | '+' :: t => parseUnsigned t
  | l => parseUnsigned l

/-- `pd.to_numeric(…, errors="coerce")` on one cell. -/
def toNumeric : Cell → Option ℚ
  | Cell.na => none
  | Cell.num q => some q
  | Cell.str s => parseNum s

/-- Split a character list at its last `'.'`:
`some (before, after)` when a dot exists. -/
def rsplitDot : List Char → Option (List Char × List Char)
  | [] => none
  | c :: t =>
      match rsplitDot t with
      | some (a, b) => some (c :: a, b)
      | none => if c = '.' then some ([], t) else none

/-- `os.path.splitext(name)[0]`: drop the extension at the last dot, except
when every character before that dot is itself a dot (hidden-file rule). -/
def stripExt (name : String) : String :=
  match rsplitDot name.data with
  | none => name
  | some (stem, _) => if stem.any (fun c => c ≠ '.') then ⟨stem⟩ else name

/-- pandas' default `STR_NA_VALUES`: text cells with exactly one of these
contents are converted to missing values by `pd.read_excel` (default
`na_filter=True`, `keep_default_na=True`). -/
def STR_NA_VALUES : List String :=
  ["", "#N/A", "#N/A N/A", "#NA", "-1.#IND", "-1.#QNAN", "-NaN", "-nan",
   "1.#IND", "1.#QNAN", "<NA>", "N/A", "NA", "NULL", "NaN", "None",
   "n/a", "nan", "null"]

/-- `pd.read_excel`'s NA conversion on one text-column cell. -/
def readStr (o : Option String) : Option String :=
  o.bind (fun s => if STR_NA_VALUES.contains s then none else some s)

/-- `pd.read_excel`'s NA conversion on one cell of an arbitrary column. -/
def readCell : Cell → Cell
  | Cell.str s => if STR_NA_VALUES.contains s then Cell.na else Cell.str s
  | c => c

/-- `astype("string").str.strip()` on one cell of a text column. -/
def normCell (o : Option String) : Option String := o.map strTrim

/-- One row of the merged dataset (an utterance record). -/
structure Rec where
  lesson_id : String
  source_row_index : ℕ
  TimeStamp : Cell
  Turn : Cell
  Turn_num : Option ℚ
  Speaker : Option String
  Sentence : Option String
  Teacher_Tag : Option String
  Student_Tag : Option String
  DialogAct : Option String
  role : String
deriving DecidableEq

/-- Build the record of one source row: apply `pd.read_excel`'s default NA
conversion to every cell, stamp the lesson id and the 0-based row position,
trim the five text columns, parse `Turn`, derive `role`.  (The Python code
trims and derives only after concatenation, but all those operations are
element-wise, so the result is the same.  The `role` field is only
meaningful when the speaker cell is present: on a missing speaker the real
pipeline raises before any record is returned — see `load_and_merge_xlsx`.) -/
def mkRec (lesson : String) (i : ℕ) (r : Row) : Rec :=
  { lesson_id := lesson
    source_row_index := i
    TimeStamp := readCell r.TimeStamp
    Turn := readCell r.Turn
    Turn_num := toNumeric (readCell r.Turn)
    Speaker := normCell (readStr r.Speaker)
    Sentence := normCell (readStr r.Sentence)
    Teacher_Tag := normCell (readStr r.Teacher_Tag)
    Student_Tag := normCell (readStr r.Student_Tag)
    DialogAct := normCell (readStr r.DialogAct)
    role := get_role (normCell (readStr r.Speaker)) }

/-- Records of one file, numbered from `i`. -/
def stampRows (lesson : String) : ℕ → List Row → List Rec
  | _, [] => []
  | i, r :: rs => mkRec lesson i r :: stampRows lesson (i + 1) rs

/-- `lesson_id = os.path.splitext(os.path.basename(path))[0]` — note: the
code does not trim the result. -/
def lessonOf (f : SourceFile) : String := stripExt f.name

/-- All records of one file, in file order. -/
def fileRecs (f : SourceFile) : List Rec := stampRows (lessonOf f) 0 f.rows

/-- The concatenation `pd.concat(dfs, ignore_index=True)` of all files'
records, in discovery order. -/
def concatRecs (files : List SourceFile) : List Rec :=
  (files.map fileRecs).flatten

/-- The `na_position="last"` order on `Turn_num`: every number precedes
missing, missing ties with missing. -/
def turnLE : Option ℚ → Option ℚ → Prop
  | _, none => True
  | none, some _ => False
  | some x, some y => x ≤ y

instance : DecidableRel turnLE := fun a b =>
  match a, b with
  | none, none => isTrue trivial
  | some _, none => isTrue trivial
  | none, some _ => isFalse (fun h => h)
  | some _, some _ => inferInstanceAs (Decidable (_ ≤ _))

/-- Code-point lexicographic comparison of character lists — the order in
which pandas compares Python strings.  (Agrees with `String.lt`, but is
structurally recursive so that it evaluates in the kernel.) -/
def lexLt : List Char → List Char → Bool
  | _, [] => false
  | [], _ :: _ => true
  | a :: as, b :: bs => if a < b then true else if b < a then false else lexLt as bs

/-- Strict string order (code-point lexicographic). -/
def strLt (a b : String) : Prop := lexLt a.data b.data = true

instance : DecidableRel strLt := fun a b =>
  inferInstanceAs (Decidable (_ = true))

/-- The sort key of `data.sort_values(by=["lesson_id", "Turn_num"])`:
lexicographic on the lesson id (string order) and then on the parsed turn
number with missing values last. -/
def pandasLE (a b : Rec) : Prop :=
  strLt a.lesson_id b.lesson_id ∨ (a.lesson_id = b.lesson_id ∧ turnLE a.Turn_num b.Turn_num)

instance : DecidableRel pandasLE := fun a b => by
  unfold pandasLE; infer_instance

/-- The merged, sorted dataset (the value `load_and_merge_xlsx` returns on
success): concatenate every file's records and stably sort by
`(lesson_id, Turn_num)`, missing turn numbers last. -/
def merged (files : List SourceFile) : List Rec :=
  (concatRecs files).insertionSort pandasLE

/-- The exceptions the load path can raise: the `KeyError` of a column
selection with absent labels, the `ValueError` of `pd.concat([])`, and the
`TypeError` of `bool(pd.NA)` inside `get_role` when a speaker cell is
missing. -/
inductive LoadErr where
  | keyError : String → LoadErr
  | valueError : String → LoadErr
  | typeError : String → LoadErr
deriving DecidableEq

instance {ε α : Type _} [DecidableEq ε] [DecidableEq α] : DecidableEq (Except ε α) := fun a b =>
  match a, b with
  | Except.error e, Except.error f =>
      decidable_of_iff (e = f) ⟨fun h => congrArg Except.error h, Except.error.inj⟩
  | Except.ok x, Except.ok y =>
      decidable_of_iff (x = y) ⟨fun h => congrArg Except.ok h, Except.ok.inj⟩
  | Except.error _, Except.ok _ => isFalse (fun h => Except.noConfusion h)
  | Except.ok _, Except.error _ => isFalse (fun h => Except.noConfusion h)

/-- The required columns absent from a file's header. -/
def missingCols (f : SourceFile) : List String :=
  REQUIRED_COLS.filter (fun c => !(f.cols.contains c))

/-- The message of the `KeyError` raised by `df[REQUIRED_COLS + ["lesson_id"]]`:
it lists the missing column labels and nothing else. -/
def keyErrorMsg (missing : List String) : String :=
  "[" ++ String.intercalate ", " missing ++ "] not in index"

/-- `load_and_merge_xlsx` of src/main.py with its failure behaviour.
`data_dir` only feeds the (external) glob, whose result is `files`; the
per-file loop raises a `KeyError` at the first file missing a required
column; `pd.concat` raises a `ValueError` when no file was found; and
`data["Speaker"].apply(get_role)` (line 47, after the sort) raises a
`TypeError` as soon as it meets a missing speaker cell, because
`speaker or ""` evaluates `bool(pd.NA)`. -/
def load_and_merge_xlsx (data_dir : String) (files : List SourceFile) :
    Except LoadErr (List Rec) :=
  match files.find? (fun f => !(missingCols f).isEmpty) with
  | some f => Except.error (LoadErr.keyError (keyErrorMsg (missingCols f)))
  | none =>
      if files.isEmpty then
        Except.error (LoadErr.valueError "No objects to concatenate")
      else if (merged files).any (fun r => r.Speaker.isNone) then
        Except.error (LoadErr.typeError "boolean value of NA is ambiguous")
      else
        Except.ok (merged files)

/-! ## The aggregation layer (RQ1–RQ3) -/

/-- `data[data["lesson_id"].isin(selected_lessons)]`. -/
def filtered (data : List Rec) (sel : List String) : List Rec :=
  data.filter (fun r => sel.contains r.lesson_id)

/-- Distinct elements in first-appearance order (the key order a pandas
hash table produces); `seen` accumulates the values already emitted. -/
def dedupF [DecidableEq α] : List α → List α → List α
  | _, [] => []
  | seen, a :: l => if a ∈ seen then dedupF seen l else a :: dedupF (a :: seen) l

/-- Occurrences of `v` in `l`. -/
def cnt [DecidableEq α] (v : α) (l : List α) : ℕ :=
  (l.filter (fun x => x = v)).length

/-- Descending-count order on `(value, count)` pairs. -/
def descCnt (p q : String × ℕ) : Prop := q.2 ≤ p.2

instance : DecidableRel descCnt := fun p q =>
  inferInstanceAs (Decidable (q.2 ≤ p.2))

/-- `Series.value_counts()`: the distinct values with their occurrence
counts, sorted by descending count.  pandas leaves the relative order of
TIED counts unspecified (hash-bucket key order followed by an unstable
quicksort); since the model must be a function it fixes one concrete
refinement — first-appearance key order and a stable descending sort — and
only tie-order-insensitive properties are proved about it. -/
def value_counts (l : List String) : List (String × ℕ) :=
  ((dedupF [] l).map (fun v => (v, cnt v l))).insertionSort descCnt

/-- String order as a decidable relation (pandas sorts labels ascending). -/
def strLE (a b : String) : Prop := lexLt b.data a.data = false

instance : DecidableRel strLE := fun a b =>
  inferInstanceAs (Decidable (_ = false))

/-- `groupby("role").size()` of the RQ1 block: sorted distinct roles with
their row counts. -/
def rq1_turns (data : List Rec) : List (String × ℕ) :=
  ((dedupF [] (data.map Rec.role)).insertionSort strLE).map
    (fun g => (g, cnt g (data.map Rec.role)))

/-- `filtered["DialogAct"].dropna()`: the present dialog-act values, in
dataset order. -/
def daColumn (data : List Rec) : List String :=
  data.filterMap Rec.DialogAct

/-- `da_counts` of src/main.py: value counts of the present dialog acts,
truncated to the ten largest. -/
def da_counts (data : List Rec) : List (String × ℕ) :=
  (value_counts (daColumn data)).take 10

/-- `filtered[filtered["role"] == "student"]`. -/
def students (data : List Rec) : List Rec :=
  data.filter (fun r => r.role = "student")

/-- `students["Student_Tag"].dropna()`. -/
def stColumn (data : List Rec) : List String :=
  (students data).filterMap Rec.Student_Tag

/-- `st_counts` of src/main.py. -/
def st_counts (data : List Rec) : List (String × ℕ) :=
  (value_counts (stColumn data)).take 10

/-- `filtered[filtered["role"] == "teacher"]`. -/
def teachers (data : List Rec) : List Rec :=
  data.filter (fun r => r.role = "teacher")

/-- The `(Teacher_Tag, DialogAct)` pairs `pd.crosstab` counts: one pair per
teacher record in which both labels are present (crosstab drops the rest). -/
def ctPairs (data : List Rec) : List (String × String) :=
  (teachers data).filterMap (fun r =>
    match r.Teacher_Tag, r.DialogAct with
    | some t, some d => some (t, d)
    | _, _ => none)

/-- The row labels of `ct_counts`: sorted distinct teacher tags of the
counted pairs. -/
def ctRows (data : List Rec) : List String :=
  (dedupF [] ((ctPairs data).map Prod.fst)).insertionSort strLE

/-- The column labels of `ct_counts`: sorted distinct dialog acts of the
counted pairs. -/
def ctCols (data : List Rec) : List String :=
  (dedupF [] ((ctPairs data).map Prod.snd)).insertionSort strLE

/-- One cell of `ct_counts`. -/
def ct_counts (data : List Rec) (t d : String) : ℕ :=
  ((ctPairs data).filter (fun p => p.1 = t ∧ p.2 = d)).length

/-- `ct_counts.sum(axis=1)` for the row labelled `t`. -/
def ctRowTotal (data : List Rec) (t : String) : ℕ :=
  ((ctPairs data).filter (fun p => p.1 = t)).length

/-- One cell of `ct_counts.div(ct_counts.sum(axis=1), axis=0)` before
`fillna`: `none` models the NaN a zero total would produce. -/
def ctDiv (data : List Rec) (t d : String) : Option ℚ :=
  if ctRowTotal data t = 0 then none
  else some ((ct_counts data t d : ℚ) / (ctRowTotal data t : ℚ))

/-- One cell of `ct_props` (after `fillna(0)`). -/
def ct_props (data : List Rec) (t d : String) : ℚ :=
  (ctDiv data t d).getD 0

/-- Strict version of the `Turn_num` order: a number precedes every missing
value, numbers compare by `<`, missing never strictly precedes anything. -/
def turnLT : Option ℚ → Option ℚ → Prop
  | some _, none => True
  | some x, some y => x < y
  | none, _ => False

instance : DecidableRel turnLT := fun a b =>
  match a, b with
  | some _, none => isTrue trivial
  | some _, some _ => inferInstanceAs (Decidable (_ < _))
  | none, none => isFalse (fun h => h)
  | none, some _ => isFalse (fun h => h)

/-- The full (strict) merge-order key of the claim: lesson id, then turn
number with missing last, then source row index as tie-breaker. -/
def recKeyLT (a b : Rec) : Prop :=
  strLt a.lesson_id b.lesson_id ∨
    (a.lesson_id = b.lesson_id ∧
      (turnLT a.Turn_num b.Turn_num ∨
        (a.Turn_num = b.Turn_num ∧ a.source_row_index < b.source_row_index)))

instance : DecidableRel recKeyLT := fun a b => by
  unfold recKeyLT; infer_instance

/-- Shape of a base name produced by globbing `*.xlsx` in one directory:
at least one character of stem, the literal extension `.xlsx`, and no
leading dot (the glob does not match hidden files). -/
def globOk (n : String) : Bool :=
  decide (5 < n.data.length) &&
    (n.data.drop (n.data.length - 5) == ".xlsx".data) &&
    (n.data.head? != some '.')

/-- Concrete five-row dataset used by several witnesses: lesson `"A"` with
three teacher turns tagged `Q, Q, S` against dialog acts `ask, ask, state`
and two student turns tagged `build` (the end-to-end scenario of the spec). -/
def wData : List Rec :=
  [mkRec "A" 0 ⟨Cell.na, Cell.str "1", some "T", none, some "Q", none, some "ask"⟩,
   mkRec "A" 1 ⟨Cell.na, Cell.str "2", some "T", none, some "Q", none, some "ask"⟩,
   mkRec "A" 2 ⟨Cell.na, Cell.str "3", some "T", none, some "S", none, some "state"⟩,
   mkRec "A" 3 ⟨Cell.na, Cell.str "4", some "S1", none, none, some "build", none⟩,
   mkRec "A" 4 ⟨Cell.na, Cell.str "5", some "S2", none, none, some "build", none⟩]

/-- Concrete two-file corpus of the spec's merge-ordering scenario: lesson
`"L2"` (discovered first) with turns `3, 1, 2` and an unparsable turn `"x"`,
lesson `"L1"` with turns `5, 4`. -/
def wFiles : List SourceFile :=
  [⟨"L2.xlsx", REQUIRED_COLS,
     [⟨Cell.na, Cell.str "3", some "T", none, none, none, none⟩,
      ⟨Cell.na, Cell.str "x", some "S", none, none, none, none⟩,
      ⟨Cell.na, Cell.str "1", some "S", none, none, none, none⟩,
      ⟨Cell.na, Cell.str "2", some "S", none, none, none, none⟩]⟩,
   ⟨"L1.xlsx", REQUIRED_COLS,
     [⟨Cell.na, Cell.str "5", some "T", none, none, none, none⟩,
      ⟨Cell.na, Cell.str "4", some "S", none, none, none, none⟩]⟩]

end EducDemo

namespace EducDemo

/-! ## Order facts about the sort keys -/

theorem lexLt_nil (l : List Char) : lexLt l [] = false := by cases l <;> rfl

theorem lexLt_irrefl : ∀ l : List Char, lexLt l l = false
  | [] => rfl
  | a :: as => by simp [lexLt, lexLt_irrefl as]

theorem lexLt_trans : ∀ (l₁ l₂ l₃ : List Char),
    lexLt l₁ l₂ = true → lexLt l₂ l₃ = true → lexLt l₁ l₃ = true := by
  intro l₁
  induction l₁ with
  | nil =>
    intro l₂ l₃ h1 h2
    cases l₃ with
    | nil => rw [lexLt_nil] at h2; simp at h2
    | cons c cs => rfl
  | cons a as ih =>
    intro l₂ l₃ h1 h2
    cases l₂ with
    | nil => rw [lexLt_nil] at h1; simp at h1
    | cons b bs =>
      cases l₃ with
      | nil => rw [lexLt_nil] at h2; simp at h2
      | cons c cs =>
        rcases lt_trichotomy a b with hab | hab | hab <;>
          rcases lt_trichotomy b c with hbc | hbc | hbc
        · simp [lexLt, lt_trans hab hbc]
        · subst hbc; simp [lexLt, hab]
        · simp [lexLt, lt_asymm hbc, hbc] at h2
        · subst hab; simp [lexLt, hbc]
        · subst hab; subst hbc
          simp [lexLt, lt_irrefl] at h1 h2 ⊢
          exact ih _ _ h1 h2
        · subst hab; simp [lexLt, lt_asymm hbc, hbc] at h2
        · simp [lexLt, lt_asymm hab, hab] at h1
        · subst hbc; simp [lexLt, lt_asymm hab, hab] at h1
        · simp [lexLt, lt_asymm hab, hab] at h1

theorem lexLt_asymm : ∀ (l₁ l₂ : List Char), lexLt l₁ l₂ = true → lexLt l₂ l₁ = false := by
  intro l₁
  induction l₁ with
  | nil => intro l₂ _; exact lexLt_nil l₂
  | cons a as ih =>
    intro l₂ h
    cases l₂ with
    | nil => rw [lexLt_nil] at h; simp at h
    | cons b bs =>
      rcases lt_trichotomy a b with hab | hab | hab
      · simp [lexLt, lt_asymm hab, hab]
      · subst hab; simp [lexLt, lt_irrefl] at h ⊢; exact ih _ h
      · simp [lexLt, lt_asymm hab, hab] at h

theorem lexLt_eq_of_not_lt : ∀ (l₁ l₂ : List Char),
    lexLt l₁ l₂ = false → lexLt l₂ l₁ = false → l₁ = l₂ := by
  intro l₁
  induction l₁ with
  | nil =>
    intro l₂ h1 _
    cases l₂ with
    | nil => rfl
    | cons b bs => simp [lexLt] at h1
  | cons a as ih =>
    intro l₂ h1 h2
    cases l₂ with
    | nil => simp [lexLt] at h2
    | cons b bs =>
      rcases lt_trichotomy a b with hab | hab | hab
      · simp [lexLt, hab] at h1
      · subst hab
        simp [lexLt, lt_irrefl] at h1 h2
        rw [ih _ h1 h2]
      · simp [lexLt, hab] at h2

theorem strData_inj {a b : String} (h : a.data = b.data) : a = b := by
  cases a; cases b; exact congrArg String.mk h

theorem strLt_asymm {a b : String} (h : strLt a b) : ¬ strLt b a := by
  unfold strLt at *
  rw [lexLt_asymm _ _ h]
  simp

theorem strLt_trans {a b c : String} : strLt a b → strLt b c → strLt a c :=
  lexLt_trans _ _ _

theorem strLt_irrefl (a : String) : ¬ strLt a a := by
  unfold strLt
  simp [lexLt_irrefl]

theorem strLt_trichotomy (a b : String) : strLt a b ∨ a = b ∨ strLt b a := by
  unfold strLt
  cases h1 : lexLt a.data b.data
  · cases h2 : lexLt b.data a.data
    · exact Or.inr (Or.inl (strData_inj (lexLt_eq_of_not_lt _ _ h1 h2)))
    · exact Or.inr (Or.inr rfl)
  · exact Or.inl rfl

theorem strLE_total (a b : String) : strLE a b ∨ strLE b a := by
  unfold strLE
  cases h : lexLt b.data a.data
  · exact Or.inl rfl
  · exact Or.inr (lexLt_asymm _ _ h)

theorem strLE_trans (a b c : String) : strLE a b → strLE b c → strLE a c := by
  unfold strLE
  intro h1 h2
  cases h : lexLt c.data a.data
  · rfl
  · by_cases hbc : lexLt b.data c.data = true
    · have := lexLt_trans _ _ _ hbc h
      rw [this] at h1
      simp at h1
    · have hbc' : lexLt b.data c.data = false := by
        cases hq : lexLt b.data c.data
        · rfl
        · exact absurd hq hbc
      have hbceq := lexLt_eq_of_not_lt _ _ hbc' h2
      rw [← hbceq] at h
      rw [h] at h1
      simp at h1

theorem strLE_antisymm (a b : String) : strLE a b → strLE b a → a = b := fun h1 h2 =>
  strData_inj (lexLt_eq_of_not_lt _ _ h2 h1)

theorem turnLE_total (x y : Option ℚ) : turnLE x y ∨ turnLE y x := by
  cases x <;> cases y <;> simp [turnLE] <;> exact le_total _ _

theorem turnLE_trans {x y z : Option ℚ} : turnLE x y → turnLE y z → turnLE x z := by
  cases x <;> cases y <;> cases z <;> simp [turnLE] <;> exact le_trans

theorem turnLE_antisymm {x y : Option ℚ} : turnLE x y → turnLE y x → x = y := by
  cases x <;> cases y <;> simp [turnLE] <;> exact le_antisymm

theorem turnLT_of_le_not_le {x y : Option ℚ} (h : turnLE x y) (h' : ¬ turnLE y x) :
    turnLT x y := by
  cases x <;> cases y <;> simp_all [turnLE, turnLT]

theorem turnLT_irrefl (x : Option ℚ) : ¬ turnLT x x := by
  cases x <;> simp [turnLT]

theorem turnLT_asymm {x y : Option ℚ} : turnLT x y → turnLT y x → False := by
  cases x <;> cases y <;> simp [turnLT]
  exact fun p => le_of_lt p

theorem pandasLE_total (a b : Rec) : pandasLE a b ∨ pandasLE b a := by
  unfold pandasLE
  rcases strLt_trichotomy a.lesson_id b.lesson_id with h | h | h
  · exact Or.inl (Or.inl h)
  · rcases turnLE_total a.Turn_num b.Turn_num with ht | ht
    · exact Or.inl (Or.inr ⟨h, ht⟩)
    · exact Or.inr (Or.inr ⟨h.symm, ht⟩)
  · exact Or.inr (Or.inl h)

theorem pandasLE_trans (a b c : Rec) : pandasLE a b → pandasLE b c → pandasLE a c := by
  unfold pandasLE
  rintro (h1 | ⟨h1, t1⟩) (h2 | ⟨h2, t2⟩)
  · exact Or.inl (strLt_trans h1 h2)
  · exact Or.inl (by rw [← h2]; exact h1)
  · exact Or.inl (by rw [h1]; exact h2)
  · exact Or.inr ⟨h1.trans h2, turnLE_trans t1 t2⟩

theorem recKeyLT_asymm {a b : Rec} : recKeyLT a b → recKeyLT b a → False := by
  unfold recKeyLT
  rintro (h1 | ⟨h1, ht1 | ⟨he1, hi1⟩⟩) (h2 | ⟨h2, ht2 | ⟨he2, hi2⟩⟩)
  · exact strLt_asymm h1 h2
  · exact strLt_irrefl _ (by rw [h2] at h1; exact h1)
  · exact strLt_irrefl _ (by rw [h2] at h1; exact h1)
  · exact strLt_irrefl _ (by rw [h1] at h2; exact h2)
  · exact turnLT_asymm ht1 ht2
  · exact turnLT_irrefl _ (by rw [he2] at ht1; exact ht1)
  · exact strLt_irrefl _ (by rw [h1] at h2; exact h2)
  · exact turnLT_irrefl _ (by rw [he1] at ht2; exact ht2)
  · exact Nat.lt_asymm hi1 hi2

/-! ## C3 — the role classifier -/

/-- C3: `get_role` is a total deterministic function into
`{"teacher", "student"}`; it returns `"teacher"` exactly when the trimmed,
lower-cased label is one of `"t"`, `"teacher"`, `"instructor"` or contains
`"teacher"` as a substring, and `"student"` otherwise (in particular on the
empty string and on a missing label). -/
theorem C3_get_role_spec (sp : Option String) :
    (get_role sp = "teacher" ∨ get_role sp = "student") ∧
    (get_role sp = "teacher" ↔
      (strLower (strTrim (sp.getD "")) = "t" ∨
       strLower (strTrim (sp.getD "")) = "teacher" ∨
       strLower (strTrim (sp.getD "")) = "instructor" ∨
       hasSub "teacher".data (strLower (strTrim (sp.getD ""))).data = true)) := by
  simp only [get_role]
  by_cases h1 : strLower (strTrim (sp.getD "")) = "t" ∨
      strLower (strTrim (sp.getD "")) = "teacher" ∨
      strLower (strTrim (sp.getD "")) = "instructor"
  · rw [if_pos h1]
    refine ⟨Or.inl rfl, iff_of_true rfl ?_⟩
    rcases h1 with h | h | h
    · exact Or.inl h
    · exact Or.inr (Or.inl h)
    · exact Or.inr (Or.inr (Or.inl h))
  · rw [if_neg h1]
    by_cases h2 : hasSub "teacher".data (strLower (strTrim (sp.getD ""))).data = true
    · rw [if_pos h2]
      exact ⟨Or.inl rfl, iff_of_true rfl (Or.inr (Or.inr (Or.inr h2)))⟩
    · rw [if_neg h2]
      refine ⟨Or.inr rfl, iff_of_false (by decide) ?_⟩
      rintro (h | h | h | h)
      · exact h1 (Or.inl h)
      · exact h1 (Or.inr (Or.inl h))
      · exact h1 (Or.inr (Or.inr h))
      · exact h2 h

/-- Witness for C3 at concrete labels. -/
theorem C3_get_role_spec_witness :
    (get_role (some "Co-Teacher Jones") = "teacher" ∨
      get_role (some "Co-Teacher Jones") = "student") ∧
    get_role (some "Co-Teacher Jones") = "teacher" :=
  ⟨(C3_get_role_spec (some "Co-Teacher Jones")).1,
   (C3_get_role_spec (some "Co-Teacher Jones")).2.mpr (by decide)⟩

/-! ## Helper lemmas about `dedupF` and `stampRows` -/

theorem mem_dedupF [DecidableEq α] {x : α} :
    ∀ {seen l : List α}, x ∈ dedupF seen l ↔ (x ∈ l ∧ x ∉ seen) := by
  intro seen l
  induction l generalizing seen with
  | nil => simp [dedupF]
  | cons a t ih =>
    by_cases h : a ∈ seen
    · simp only [dedupF, if_pos h]
      constructor
      · intro hx
        have := ih.mp hx
        exact ⟨List.mem_cons_of_mem _ this.1, this.2⟩
      · rintro ⟨hx, hns⟩
        rcases List.mem_cons.mp hx with rfl | hxt
        · exact absurd h hns
        · exact ih.mpr ⟨hxt, hns⟩
    · simp only [dedupF, if_neg h]
      constructor
      · intro hx
        rcases List.mem_cons.mp hx with rfl | hx
        · exact ⟨List.mem_cons_self _ _, h⟩
        · have := ih.mp hx
          refine ⟨List.mem_cons_of_mem _ this.1, fun hs => this.2 (List.mem_cons_of_mem _ hs)⟩
      · rintro ⟨hx, hns⟩
        rcases List.mem_cons.mp hx with rfl | hxt
        · exact List.mem_cons_self _ _
        · by_cases hxa : x = a
          · subst hxa; exact List.mem_cons_self _ _
          · refine List.mem_cons_of_mem _ (ih.mpr ⟨hxt, ?_⟩)
            intro hs
            rcases List.mem_cons.mp hs with h' | h'
            · exact hxa h'
            · exact hns h'

theorem nodup_dedupF [DecidableEq α] : ∀ (seen l : List α), (dedupF seen l).Nodup := by
  intro seen l
  induction l generalizing seen with
  | nil => simp [dedupF]
  | cons a t ih =>
    by_cases h : a ∈ seen
    · simpa only [dedupF, if_pos h] using ih seen
    · simp only [dedupF, if_neg h]
      refine List.nodup_cons.mpr ⟨?_, ih _⟩
      intro hmem
      exact (mem_dedupF.mp hmem).2 (List.mem_cons_self _ _)

theorem mem_stampRows {lesson : String} {r : Rec} :
    ∀ (i : ℕ) (rows : List Row), r ∈ stampRows lesson i rows →
      r.lesson_id = lesson ∧ i ≤ r.source_row_index := by
  intro i rows
  induction rows generalizing i with
  | nil => intro h; simp [stampRows] at h
  | cons row rest ih =>
    intro h
    simp only [stampRows] at h
    rcases List.mem_cons.mp h with rfl | h'
    · exact ⟨rfl, Nat.le_refl _⟩
    · obtain ⟨h1, h2⟩ := ih (i + 1) h'
      exact ⟨h1, Nat.le_trans (Nat.le_succ i) h2⟩

theorem pairwise_stampRows (lesson : String) :
    ∀ (i : ℕ) (rows : List Row),
      (stampRows lesson i rows).Pairwise
        (fun a b => a.source_row_index < b.source_row_index) := by
  intro i rows
  induction rows generalizing i with
  | nil => simp [stampRows]
  | cons row rest ih =>
    simp only [stampRows]
    refine List.pairwise_cons.mpr ⟨?_, ih (i + 1)⟩
    intro b hb
    exact Nat.lt_of_lt_of_le (Nat.lt_succ_self i) (mem_stampRows _ _ hb).2

/-! ## C2 — missing-value canonicalization -/

/-- Every key counted by `value_counts` carries its occurrence count and
occurs in the column (in particular it comes from a present cell, since the
column is built by `filterMap`). -/
theorem mem_value_counts {col : List String} {p : String × ℕ}
    (hp : p ∈ value_counts col) : p.2 = cnt p.1 col ∧ p.1 ∈ col := by
  unfold value_counts at hp
  obtain ⟨v, hv, rfl⟩ := List.mem_map.mp ((List.mem_insertionSort _).mp hp)
  exact ⟨rfl, (mem_dedupF.mp hv).1⟩

/-- C2: `pd.read_excel`'s default NA conversion turns an input cell that is
empty, `"nan"`, `"NaN"`, or actually missing into the one canonical missing
marker; the tag fields of every built record are exactly the read-then-trim
image of the raw cells; and the count-based aggregates draw their
categories only from present cells, never from the marker. -/
theorem C2_missing_canonical (data : List Rec) :
    (∀ o : Option String,
      (o = none ∨ o = some "" ∨ o = some "nan" ∨ o = some "NaN") →
      normCell (readStr o) = none) ∧
    (∀ (lesson : String) (i : ℕ) (row : Row),
      (mkRec lesson i row).Teacher_Tag = normCell (readStr row.Teacher_Tag) ∧
      (mkRec lesson i row).Student_Tag = normCell (readStr row.Student_Tag) ∧
      (mkRec lesson i row).DialogAct = normCell (readStr row.DialogAct)) ∧
    (∀ p ∈ da_counts data, ∃ r ∈ data, r.DialogAct = some p.1) ∧
    (∀ p ∈ st_counts data, ∃ r ∈ data, r.role = "student" ∧ r.Student_Tag = some p.1) := by
  refine ⟨?_, ?_, ?_, ?_⟩
  · rintro o (rfl | rfl | rfl | rfl) <;> decide
  · intro lesson i row
    exact ⟨rfl, rfl, rfl⟩
  · intro p hp
    have hp' := mem_value_counts (List.take_subset _ _ hp)
    obtain ⟨r, hr, hrd⟩ := List.mem_filterMap.mp hp'.2
    exact ⟨r, hr, hrd⟩
  · intro p hp
    have hp' := mem_value_counts (List.take_subset _ _ hp)
    obtain ⟨r, hr, hrd⟩ := List.mem_filterMap.mp hp'.2
    have hrdata : r ∈ data := (List.mem_filter.mp hr).1
    have hrole : r.role = "student" := by
      have := (List.mem_filter.mp hr).2
      simpa using this
    exact ⟨r, hrdata, hrole, hrd⟩

/-- Witness for C2 at a literal `"nan"` cell and on the concrete dataset. -/
theorem C2_missing_canonical_witness :
    normCell (readStr (some "nan")) = none ∧
    (∃ r ∈ wData, r.DialogAct = some ("ask", 2).1) ∧
    (∃ r ∈ wData, r.role = "student" ∧ r.Student_Tag = some ("build", 2).1) :=
  ⟨(C2_missing_canonical wData).1 (some "nan") (by decide),
   (C2_missing_canonical wData).2.2.1 ("ask", 2) (by decide),
   (C2_missing_canonical wData).2.2.2 ("build", 2) (by decide)⟩

/-! ## C4 — missing required columns -/

/-- C4 counterexample: a file lacking required columns makes the load fail,
but with a bare `KeyError` listing only the missing labels; the message
does not name the offending file (`"L1"`/`"L1.xlsx"` does not occur in it). -/
theorem C4_counterexample :
    load_and_merge_xlsx "DATA" [⟨"L1.xlsx", ["TimeStamp", "Turn"], []⟩] =
      Except.error (LoadErr.keyError
        "[Speaker, Sentence, Teacher_Tag, Student_Tag, DialogAct] not in index") ∧
    hasSub "L1".data
      "[Speaker, Sentence, Teacher_Tag, Student_Tag, DialogAct] not in index".data = false := by
  decide

/-- C4 amended: whenever some source file lacks a required column, the load
fails with the `KeyError` of the first such file — listing that file's
missing columns but not its name — and no dataset is returned. -/
theorem C4_missing_column (dir : String) (files : List SourceFile)
    (hex : ∃ f ∈ files, missingCols f ≠ []) :
    ∃ g ∈ files, missingCols g ≠ [] ∧
      load_and_merge_xlsx dir files =
        Except.error (LoadErr.keyError (keyErrorMsg (missingCols g))) ∧
      ∀ d, load_and_merge_xlsx dir files ≠ Except.ok d := by
  obtain ⟨f, hf, hm⟩ := hex
  have hsome : (files.find? (fun f => !(missingCols f).isEmpty)).isSome := by
    rw [List.find?_isSome]
    exact ⟨f, hf, by simpa using hm⟩
  obtain ⟨g, hg⟩ := Option.isSome_iff_exists.mp hsome
  have hgmem := List.mem_of_find?_eq_some hg
  have hgp := List.find?_some hg
  have hgm : missingCols g ≠ [] := by simpa using hgp
  refine ⟨g, hgmem, hgm, ?_, ?_⟩
  · unfold load_and_merge_xlsx
    rw [hg]
  · intro d hcontra
    unfold load_and_merge_xlsx at hcontra
    rw [hg] at hcontra
    exact Except.noConfusion hcontra

/-- Witness for C4's amended statement on a concrete malformed file. -/
theorem C4_missing_column_witness :
    ∃ g ∈ [(⟨"L1.xlsx", ["TimeStamp", "Turn"], []⟩ : SourceFile)], missingCols g ≠ [] ∧
      load_and_merge_xlsx "DATA" [⟨"L1.xlsx", ["TimeStamp", "Turn"], []⟩] =
        Except.error (LoadErr.keyError (keyErrorMsg (missingCols g))) ∧
      ∀ d, load_and_merge_xlsx "DATA" [⟨"L1.xlsx", ["TimeStamp", "Turn"], []⟩] ≠ Except.ok d :=
  C4_missing_column "DATA" [⟨"L1.xlsx", ["TimeStamp", "Turn"], []⟩]
    ⟨⟨"L1.xlsx", ["TimeStamp", "Turn"], []⟩, by decide, by decide⟩

/-! ## C5 — empty corpus -/

/-- C5 counterexample: with zero discoverable files the load fails, but with
the generic `ValueError` of `pd.concat([])`, not a dedicated
`EmptyCorpusError`; the message does not reference the data directory. -/
theorem C5_counterexample :
    load_and_merge_xlsx "DATA" [] =
      Except.error (LoadErr.valueError "No objects to concatenate") ∧
    hasSub "DATA".data "No objects to concatenate".data = false := by
  decide

/-- C5 amended: for every directory, zero discovered files make
`load_and_merge_xlsx` fail with `ValueError("No objects to concatenate")`
(rather than return a dataset, empty or otherwise). -/
theorem C5_empty_corpus (dir : String) :
    load_and_merge_xlsx dir [] =
      Except.error (LoadErr.valueError "No objects to concatenate") ∧
    ∀ d, load_and_merge_xlsx dir [] ≠ Except.ok d := by
  constructor
  · rfl
  · intro d hcontra
    exact Except.noConfusion hcontra

/-! ## C9 — lesson identifiers -/

theorem rsplitDot_append (stem rest : List Char) (h : rsplitDot rest = none) :
    rsplitDot (stem ++ '.' :: rest) = some (stem, rest) := by
  induction stem with
  | nil => simp [rsplitDot, h]
  | cons c t ih => simp [rsplitDot, ih]

theorem stripExt_of_xlsx {n : String} {stem : List Char}
    (hdata : n.data = stem ++ '.' :: "xlsx".data)
    (hne : stem ≠ []) (hhd : n.data.head? ≠ some '.') :
    stripExt n = ⟨stem⟩ := by
  have hrs : rsplitDot n.data = some (stem, "xlsx".data) := by
    rw [hdata]
    exact rsplitDot_append _ _ (by decide)
  have hany : stem.any (fun c => c ≠ '.') = true := by
    cases stem with
    | nil => exact absurd rfl hne
    | cons c cs =>
      have hcd : c ≠ '.' := by
        intro hc
        apply hhd
        rw [hdata, hc]
        rfl
      simp [hcd]
  unfold stripExt
  rw [hrs]
  exact if_pos hany

theorem globOk_unpack {n : String} (h : globOk n = true) :
    ∃ stem : List Char, n.data = stem ++ '.' :: "xlsx".data ∧ stem ≠ [] ∧
      stripExt n = ⟨stem⟩ := by
  unfold globOk at h
  rw [Bool.and_eq_true, Bool.and_eq_true] at h
  obtain ⟨⟨_, hdrop⟩, hhead⟩ := h
  have hdrop' : n.data.drop (n.data.length - 5) = ".xlsx".data := eq_of_beq hdrop
  have hhead' : n.data.head? ≠ some '.' := by
    intro hc
    rw [hc] at hhead
    simp at hhead
  have hdata : n.data = n.data.take (n.data.length - 5) ++ '.' :: "xlsx".data := by
    conv_lhs => rw [← List.take_append_drop (n.data.length - 5) n.data]
    rw [hdrop']
  have hne : n.data.take (n.data.length - 5) ≠ [] := by
    intro hc
    rw [hc] at hdata
    exact hhead' (by rw [hdata]; rfl)
  exact ⟨_, hdata, hne, stripExt_of_xlsx hdata hne hhead'⟩

/-- A successful `load_and_merge_xlsx` returns exactly the sorted merged
dataset (all its guards — missing columns, empty corpus, missing speaker —
were passed). -/
theorem load_ok_eq_merged {dir : String} {files : List SourceFile} {d : List Rec}
    (h : load_and_merge_xlsx dir files = Except.ok d) : d = merged files := by
  unfold load_and_merge_xlsx at h
  rcases hf : files.find? (fun f => !(missingCols f).isEmpty) with _ | g
  · rw [hf] at h
    by_cases he : files.isEmpty = true
    · rw [if_pos he] at h
      exact Except.noConfusion h
    · rw [if_neg he] at h
      by_cases hs : (merged files).any (fun r => r.Speaker.isNone) = true
      · rw [if_pos hs] at h
        exact Except.noConfusion h
      · rw [if_neg hs] at h
        exact (Except.ok.inj h).symm
  · rw [hf] at h
    exact Except.noConfusion h

/-- The missing-speaker crash is preserved by the model: a corpus whose
only record lacks a `Speaker` makes the load fail with the `TypeError` of
`bool(pd.NA)` — no dataset with a defaulted role is ever returned. -/
theorem load_typeError_on_missing_speaker :
    load_and_merge_xlsx "DATA"
        [⟨"L1.xlsx", REQUIRED_COLS,
          [⟨Cell.na, Cell.str "1", none, none, none, none, none⟩]⟩] =
      Except.error (LoadErr.typeError "boolean value of NA is ambiguous") := by
  decide

/-- C9 counterexample: the code does not trim the file-name-derived lesson
id — loading a corpus consisting of one well-formed file named
`" L1 .xlsx"` (present speaker, so the load succeeds) returns a dataset
whose every record carries the untrimmed lesson id `" L1 "`. -/
theorem C9_counterexample :
    load_and_merge_xlsx "DATA"
        [⟨" L1 .xlsx", REQUIRED_COLS,
          [⟨Cell.na, Cell.str "1", some "T", none, none, none, none⟩]⟩] =
      Except.ok (merged [⟨" L1 .xlsx", REQUIRED_COLS,
          [⟨Cell.na, Cell.str "1", some "T", none, none, none, none⟩]⟩]) ∧
    (merged [⟨" L1 .xlsx", REQUIRED_COLS,
        [⟨Cell.na, Cell.str "1", some "T", none, none, none, none⟩]⟩]).map Rec.lesson_id =
      [" L1 "] ∧
    strTrim " L1 " ≠ " L1 " := by
  decide

/-- C9 amended: the stamped lesson id is the base name with the `.xlsx`
extension removed and NOT trimmed; for glob-shaped, pairwise-distinct file
names, every record of a successfully loaded dataset has a non-empty
lesson id matching exactly one source file. -/
theorem C9_lesson_ids (dir : String) (files : List SourceFile) (d : List Rec)
    (hg : ∀ f ∈ files, globOk f.name = true)
    (hnd : (files.map SourceFile.name).Nodup)
    (hok : load_and_merge_xlsx dir files = Except.ok d) :
    ∀ r ∈ d, r.lesson_id ≠ "" ∧
      ∃ f ∈ files, lessonOf f = r.lesson_id ∧
        ∀ g ∈ files, lessonOf g = r.lesson_id → g = f := by
  have hd : d = merged files := load_ok_eq_merged hok
  subst hd
  intro r hr
  have hr' : r ∈ concatRecs files := (List.mem_insertionSort _).mp hr
  unfold concatRecs at hr'
  obtain ⟨chunk, hchunk, hrc⟩ := List.mem_flatten.mp hr'
  obtain ⟨f, hf, rfl⟩ := List.mem_map.mp hchunk
  have hrl : r.lesson_id = lessonOf f := (mem_stampRows 0 f.rows hrc).1
  obtain ⟨stem, hdata, hne, hstrip⟩ := globOk_unpack (hg f hf)
  have hlf : lessonOf f = ⟨stem⟩ := by
    unfold lessonOf
    exact hstrip
  constructor
  · rw [hrl, hlf]
    intro hc
    exact hne (congrArg String.data hc)
  · refine ⟨f, hf, hrl.symm, ?_⟩
    intro g hgmem hgl
    obtain ⟨stemg, hdatag, hneg, hstripg⟩ := globOk_unpack (hg g hgmem)
    have hlg : lessonOf g = ⟨stemg⟩ := by
      unfold lessonOf
      exact hstripg
    have heq : lessonOf g = lessonOf f := hgl.trans hrl.symm.symm
    have hse : stemg = stem := by
      have h2 : (⟨stemg⟩ : String) = ⟨stem⟩ := by
        rw [← hlg, ← hlf]
        exact heq
      exact congrArg String.data h2
    have hnames : g.name = f.name := strData_inj (by rw [hdatag, hdata, hse])
    exact List.inj_on_of_nodup_map hnd hgmem hf hnames

/-- Witness for C9's amended statement on a concrete loadable file. -/
theorem C9_lesson_ids_witness :
    (mkRec "L1" 0 ⟨Cell.na, Cell.str "1", some "T", none, none, none, none⟩).lesson_id ≠ "" ∧
    ∃ f ∈ [(⟨"L1.xlsx", REQUIRED_COLS,
        [⟨Cell.na, Cell.str "1", some "T", none, none, none, none⟩]⟩ : SourceFile)],
      lessonOf f =
        (mkRec "L1" 0 ⟨Cell.na, Cell.str "1", some "T", none, none, none, none⟩).lesson_id ∧
        ∀ g ∈ [(⟨"L1.xlsx", REQUIRED_COLS,
            [⟨Cell.na, Cell.str "1", some "T", none, none, none, none⟩]⟩ : SourceFile)],
          lessonOf g =
            (mkRec "L1" 0 ⟨Cell.na, Cell.str "1", some "T", none, none, none, none⟩).lesson_id →
            g = ⟨"L1.xlsx", REQUIRED_COLS,
                  [⟨Cell.na, Cell.str "1", some "T", none, none, none, none⟩]⟩ := by
  have h := C9_lesson_ids "DATA"
    [⟨"L1.xlsx", REQUIRED_COLS, [⟨Cell.na, Cell.str "1", some "T", none, none, none, none⟩]⟩]
    (merged [⟨"L1.xlsx", REQUIRED_COLS,
      [⟨Cell.na, Cell.str "1", some "T", none, none, none, none⟩]⟩])
    (by decide) (by decide) (by decide)
    (mkRec "L1" 0 ⟨Cell.na, Cell.str "1", some "T", none, none, none, none⟩) (by decide)
  obtain ⟨h1, f, hf, h2, h3⟩ := h
  refine ⟨h1, f, hf, h2, ?_⟩
  intro g hgmem hgl
  have := h3 g hgmem hgl
  rw [this]
  rcases List.mem_cons.mp hf with rfl | hcontra
  · rfl
  · exact absurd hcontra (List.not_mem_nil f)

/-! ## C8 — empty selections degrade to empty aggregates -/

/-- C8: an empty lesson selection filters the dataset to nothing and all
four aggregate views are empty (and, in general, a slice without teacher
rows yields a proportion matrix with no rows, and one without student rows
an empty student-tag top-10); nothing raises. -/
theorem C8_empty_selection (data : List Rec) :
    filtered data [] = [] ∧
    rq1_turns (filtered data []) = [] ∧
    da_counts (filtered data []) = [] ∧
    st_counts (filtered data []) = [] ∧
    ctRows (filtered data []) = [] ∧
    (∀ d : List Rec, teachers d = [] → ctRows d = []) ∧
    (∀ d : List Rec, students d = [] → st_counts d = []) := by
  have hfe : filtered data [] = [] := by
    simp [filtered]
  refine ⟨hfe, ?_, ?_, ?_, ?_, ?_, ?_⟩
  · rw [hfe]; rfl
  · rw [hfe]; rfl
  · rw [hfe]; rfl
  · rw [hfe]; rfl
  · intro d hd
    unfold ctRows ctPairs
    rw [hd]
    rfl
  · intro d hd
    unfold st_counts stColumn
    rw [hd]
    rfl

/-! ## Counting lemmas for the crosstab -/

theorem sum_map_add {β : Type _} (ks : List β) (f g : β → ℕ) :
    (ks.map (fun d => f d + g d)).sum = (ks.map f).sum + (ks.map g).sum := by
  induction ks with
  | nil => rfl
  | cons k t ih =>
    simp only [List.map_cons, List.sum_cons, ih]
    omega

theorem sum_map_indicator [DecidableEq β] (ks : List β) (hnd : ks.Nodup) (b : β)
    (hb : b ∈ ks) :
    (ks.map (fun d => if b = d then (1 : ℕ) else 0)).sum = 1 := by
  induction ks with
  | nil => cases hb
  | cons k t ih =>
    rcases List.mem_cons.mp hb with rfl | hbt
    · simp only [List.map_cons, List.sum_cons, if_pos rfl]
      have hz : (t.map (fun d => if b = d then (1 : ℕ) else 0)).sum = 0 := by
        apply List.sum_eq_zero
        intro x hx
        obtain ⟨d, hd, rfl⟩ := List.mem_map.mp hx
        rw [if_neg]
        intro he
        exact (List.nodup_cons.mp hnd).1 (he ▸ hd)
      rw [hz]
      simp
    · simp only [List.map_cons, List.sum_cons]
      rw [if_neg (fun he : b = k => (List.nodup_cons.mp hnd).1 (he ▸ hbt))]
      rw [ih (List.nodup_cons.mp hnd).2 hbt]

theorem sum_fiber_length {α β : Type _} [DecidableEq β] (ks : List β) (hnd : ks.Nodup) :
    ∀ (l : List (α × β)), (∀ p ∈ l, p.2 ∈ ks) →
      (ks.map (fun d => (l.filter (fun p => p.2 = d)).length)).sum = l.length := by
  intro l
  induction l with
  | nil => intro _; simp
  | cons p t ih =>
    intro h
    have hmap : ∀ d : β, ((p :: t).filter (fun q => q.2 = d)).length =
        (t.filter (fun q => q.2 = d)).length + (if p.2 = d then 1 else 0) := by
      intro d
      by_cases hd : p.2 = d <;> simp [List.filter_cons, hd]
    calc (ks.map fun d => ((p :: t).filter (fun q => q.2 = d)).length).sum
        = (ks.map fun d =>
            (t.filter (fun q => q.2 = d)).length + (if p.2 = d then 1 else 0)).sum := by
          congr 1
          exact List.map_congr_left (fun d _ => hmap d)
      _ = (ks.map fun d => (t.filter (fun q => q.2 = d)).length).sum +
          (ks.map fun d => if p.2 = d then (1 : ℕ) else 0).sum := sum_map_add ks _ _
      _ = t.length + 1 := by
          rw [ih (fun q hq => h q (List.mem_cons_of_mem _ hq))]
          rw [sum_map_indicator ks hnd p.2 (h p (List.mem_cons_self _ _))]
      _ = (p :: t).length := by simp

theorem mem_ctRows {data : List Rec} {t : String} :
    t ∈ ctRows data ↔ t ∈ (ctPairs data).map Prod.fst := by
  unfold ctRows
  constructor
  · intro h
    exact (mem_dedupF.mp ((List.mem_insertionSort _).mp h)).1
  · intro h
    exact (List.mem_insertionSort _).mpr (mem_dedupF.mpr ⟨h, List.not_mem_nil _⟩)

theorem mem_ctCols {data : List Rec} {d : String} :
    d ∈ ctCols data ↔ d ∈ (ctPairs data).map Prod.snd := by
  unfold ctCols
  constructor
  · intro h
    exact (mem_dedupF.mp ((List.mem_insertionSort _).mp h)).1
  · intro h
    exact (List.mem_insertionSort _).mpr (mem_dedupF.mpr ⟨h, List.not_mem_nil _⟩)

theorem ctRowTotal_pos {data : List Rec} {t : String} (h : t ∈ ctRows data) :
    1 ≤ ctRowTotal data t := by
  obtain ⟨p, hp, hpt⟩ := List.mem_map.mp (mem_ctRows.mp h)
  unfold ctRowTotal
  have hmem : p ∈ (ctPairs data).filter (fun q => q.1 = t) := by
    rw [List.mem_filter]
    exact ⟨hp, by simp [hpt]⟩
  exact List.length_pos_of_mem hmem

theorem ctRowTotal_eq_sum (data : List Rec) (t : String) :
    ((ctCols data).map (fun d => ct_counts data t d)).sum = ctRowTotal data t := by
  unfold ct_counts ctRowTotal
  have hff : ∀ d, (ctPairs data).filter (fun p => p.1 = t ∧ p.2 = d) =
      ((ctPairs data).filter (fun p => p.1 = t)).filter (fun p => p.2 = d) := by
    intro d
    rw [List.filter_filter]
    apply List.filter_congr
    intro p _
    simp [Bool.and_comm]
  have happ : ∀ p ∈ (ctPairs data).filter (fun p => p.1 = t), p.2 ∈ ctCols data := by
    intro p hp
    exact mem_ctCols.mpr (List.mem_map.mpr ⟨p, (List.mem_filter.mp hp).1, rfl⟩)
  have hnd : (ctCols data).Nodup := by
    unfold ctCols
    exact ((List.perm_insertionSort _ _).nodup_iff).mpr (nodup_dedupF _ _)
  calc ((ctCols data).map fun d =>
        ((ctPairs data).filter (fun p => p.1 = t ∧ p.2 = d)).length).sum
      = ((ctCols data).map fun d =>
          (((ctPairs data).filter (fun p => p.1 = t)).filter (fun p => p.2 = d)).length).sum := by
        congr 1
        exact List.map_congr_left (fun d _ => by rw [hff d])
    _ = ((ctPairs data).filter (fun p => p.1 = t)).length :=
        sum_fiber_length _ hnd _ happ

/-! ## C6 — the row-proportion matrix -/

/-- C6: every cell of `ct_props` is `count / row total` over the counted
teacher pairs, every row of the matrix has a total of at least one and sums
to exactly 1 (over exact rationals, the idealization of the float
arithmetic), and a row label with zero counted acts would yield all-zero
cells (never NaN or a division error). -/
theorem C6_ct_props (data : List Rec) :
    (∀ t ∈ ctRows data,
      1 ≤ ctRowTotal data t ∧
      (∀ d, ct_props data t d = (ct_counts data t d : ℚ) / (ctRowTotal data t : ℚ)) ∧
      ((ctCols data).map (fun d => ct_props data t d)).sum = 1) ∧
    (∀ t, ctRowTotal data t = 0 → ∀ d, ct_props data t d = 0) := by
  constructor
  · intro t ht
    have hpos := ctRowTotal_pos ht
    have hne : ctRowTotal data t ≠ 0 := by omega
    have hprop : ∀ d, ct_props data t d =
        (ct_counts data t d : ℚ) / (ctRowTotal data t : ℚ) := by
      intro d
      unfold ct_props ctDiv
      rw [if_neg hne]
      rfl
    refine ⟨hpos, hprop, ?_⟩
    have hQne : ((ctRowTotal data t : ℚ)) ≠ 0 := Nat.cast_ne_zero.mpr hne
    have hsum : ((ctCols data).map fun d => (ct_counts data t d : ℚ)).sum =
        (ctRowTotal data t : ℚ) := by
      calc ((ctCols data).map fun d => (ct_counts data t d : ℚ)).sum
          = ((((ctCols data).map fun d => ct_counts data t d).map
              (fun n : ℕ => (n : ℚ)))).sum := by
            rw [List.map_map]
            rfl
        _ = ((((ctCols data).map fun d => ct_counts data t d).sum : ℕ) : ℚ) :=
            (Nat.cast_list_sum _).symm
        _ = (ctRowTotal data t : ℚ) := by rw [ctRowTotal_eq_sum]
    calc ((ctCols data).map fun d => ct_props data t d).sum
        = ((ctCols data).map fun d =>
            (ct_counts data t d : ℚ) * (ctRowTotal data t : ℚ)⁻¹).sum := by
          congr 1
          exact List.map_congr_left (fun d _ => by rw [hprop d, div_eq_mul_inv])
      _ = ((ctCols data).map fun d => (ct_counts data t d : ℚ)).sum *
          (ctRowTotal data t : ℚ)⁻¹ := List.sum_map_mul_right _ _ _
      _ = (ctRowTotal data t : ℚ) * (ctRowTotal data t : ℚ)⁻¹ := by rw [hsum]
      _ = 1 := mul_inv_cancel₀ hQne
  · intro t h0 d
    unfold ct_props ctDiv
    rw [if_pos h0]
    rfl

/-- Witness for C6 on the spec's end-to-end dataset. -/
theorem C6_ct_props_witness :
    (1 ≤ ctRowTotal wData "Q") ∧
    ((ctCols wData).map (fun d => ct_props wData "Q" d)).sum = 1 :=
  ⟨((C6_ct_props wData).1 "Q" (by decide)).1,
   ((C6_ct_props wData).1 "Q" (by decide)).2.2⟩

/-! ## C10 — the crosstab is built from fully-tagged teacher rows -/

/-- C10: every counted pair of the crosstab comes from a teacher record in
which both `Teacher_Tag` and `DialogAct` are present, so every row label of
the count matrix has total at least one and the division producing
`ct_props` never hits a zero denominator: `ctDiv` is `some` on every matrix
row (the NaN-filling branch is unreachable). -/
theorem C10_crosstab_no_nan (data : List Rec) :
    (∀ p ∈ ctPairs data, ∃ r ∈ data, r.role = "teacher" ∧
        r.Teacher_Tag = some p.1 ∧ r.DialogAct = some p.2) ∧
    (∀ t ∈ ctRows data, 1 ≤ ctRowTotal data t ∧
      ∀ d, ctDiv data t d =
        some ((ct_counts data t d : ℚ) / (ctRowTotal data t : ℚ))) := by
  constructor
  · intro p hp
    unfold ctPairs at hp
    obtain ⟨r, hr, hmatch⟩ := List.mem_filterMap.mp hp
    have hrdata : r ∈ data := (List.mem_filter.mp hr).1
    have hrole : r.role = "teacher" := by
      have := (List.mem_filter.mp hr).2
      simpa using this
    refine ⟨r, hrdata, hrole, ?_⟩
    cases htag : r.Teacher_Tag with
    | none =>
      exfalso
      rw [htag] at hmatch
      simp at hmatch
    | some t =>
      cases hda : r.DialogAct with
      | none =>
        exfalso
        rw [htag, hda] at hmatch
        simp at hmatch
      | some d =>
        rw [htag, hda] at hmatch
        simp only [Option.some.injEq] at hmatch
        rw [← hmatch]
        exact ⟨rfl, rfl⟩
  · intro t ht
    refine ⟨ctRowTotal_pos ht, fun d => ?_⟩
    have := ctRowTotal_pos ht
    unfold ctDiv
    rw [if_neg (by omega)]

/-- Witness for C10 on the spec's end-to-end dataset. -/
theorem C10_crosstab_no_nan_witness :
    (∃ r ∈ wData, r.role = "teacher" ∧
      r.Teacher_Tag = some ("Q", "ask").1 ∧ r.DialogAct = some ("Q", "ask").2) ∧
    (1 ≤ ctRowTotal wData "S") :=
  ⟨(C10_crosstab_no_nan wData).1 ("Q", "ask") (by decide),
   ((C10_crosstab_no_nan wData).2 "S" (by decide)).1⟩

/-! ## Stability of the modelled sorts -/

open List in
theorem pair_sublist_or {α : Type _} {a b : α} (hne : a ≠ b) :
    ∀ {l : List α}, a ∈ l → b ∈ l → [a, b] <+ l ∨ [b, a] <+ l := by
  intro l
  induction l with
  | nil => intro ha _; cases ha
  | cons c t ih =>
    intro ha hb
    rcases eq_or_ne a c with rfl | hac
    · have hbt : b ∈ t := by
        rcases List.mem_cons.mp hb with h | h
        · exact absurd h.symm hne
        · exact h
      exact Or.inl (List.Sublist.cons₂ a (List.singleton_sublist.mpr hbt))
    · rcases eq_or_ne b c with rfl | hbc
      · have hat : a ∈ t := by
          rcases List.mem_cons.mp ha with h | h
          · exact absurd h hac
          · exact h
        exact Or.inr (List.Sublist.cons₂ b (List.singleton_sublist.mpr hat))
      · have hat : a ∈ t := (List.mem_cons.mp ha).resolve_left hac
        have hbt : b ∈ t := (List.mem_cons.mp hb).resolve_left hbc
        rcases ih hat hbt with h | h
        · exact Or.inl (List.Sublist.cons c h)
        · exact Or.inr (List.Sublist.cons c h)

open List in
theorem pair_sublist_antisymm {α : Type _} {a b : α} :
    ∀ {l : List α}, l.Nodup → [a, b] <+ l → [b, a] <+ l → a = b := by
  intro l
  induction l with
  | nil => intro _ h _; exact absurd h (by simp)
  | cons c t ih =>
    intro hnd h1 h2
    obtain ⟨hc, hndt⟩ := List.nodup_cons.mp hnd
    cases h1 with
    | cons _ h1' =>
      cases h2 with
      | cons _ h2' => exact ih hndt h1' h2'
      | cons₂ _ h2' =>
        have hbt : b ∈ t := (List.Sublist.subset h1') (by simp)
        exact absurd hbt hc
    | cons₂ _ h1' =>
      cases h2 with
      | cons _ h2' =>
        have hat : a ∈ t := (List.Sublist.subset h2') (by simp)
        exact absurd hat hc
      | cons₂ _ h2' => rfl

/-- A stable sort of a duplicate-free list: consecutive output elements are
related by the sort key, and key-ties keep any relation `Q` that held
pairwise in the input order. -/
theorem pairwise_insertionSort_stable {α : Type _} (r : α → α → Prop) [DecidableRel r]
    (rtot : ∀ a b, r a b ∨ r b a) (rtrans : ∀ a b c, r a b → r b c → r a c)
    {Q : α → α → Prop} {l : List α} (hnd : l.Nodup) (hQ : l.Pairwise Q) :
    (l.insertionSort r).Pairwise (fun a b => r a b ∧ (r b a → Q a b)) := by
  haveI : IsTotal α r := ⟨rtot⟩
  haveI : IsTrans α r := ⟨rtrans⟩
  rw [List.pairwise_iff_forall_sublist]
  intro a b hab
  have hsorted : (l.insertionSort r).Pairwise r := List.sorted_insertionSort r l
  have hr : r a b := List.pairwise_iff_forall_sublist.mp hsorted hab
  refine ⟨hr, fun hba => ?_⟩
  have hnd' : (l.insertionSort r).Nodup := (List.perm_insertionSort r l).nodup_iff.mpr hnd
  have hne : a ≠ b := List.pairwise_iff_forall_sublist.mp hnd' hab
  have ha : a ∈ l := (List.mem_insertionSort r).mp (hab.subset (by simp))
  have hb : b ∈ l := (List.mem_insertionSort r).mp (hab.subset (by simp))
  rcases pair_sublist_or hne ha hb with h | h
  · exact List.pairwise_iff_forall_sublist.mp hQ h
  · exact absurd
      (pair_sublist_antisymm hnd' hab (List.pair_sublist_insertionSort hba h)) hne

/-- Witness for C8 on concrete one-row datasets. -/
theorem C8_empty_selection_witness :
    filtered [mkRec "A" 0 ⟨Cell.na, Cell.na, none, none, none, none, none⟩] [] = [] ∧
    ctRows [mkRec "A" 0 ⟨Cell.na, Cell.na, none, none, none, none, none⟩] = [] ∧
    st_counts [mkRec "A" 0 ⟨Cell.na, Cell.na, some "T", none, none, none, none⟩] = [] :=
  ⟨(C8_empty_selection [mkRec "A" 0 ⟨Cell.na, Cell.na, none, none, none, none, none⟩]).1,
   (C8_empty_selection [mkRec "A" 0 ⟨Cell.na, Cell.na, none, none, none, none, none⟩]).2.2.2.2.2.1
     _ (by decide),
   (C8_empty_selection [mkRec "A" 0 ⟨Cell.na, Cell.na, some "T", none, none, none, none⟩]).2.2.2.2.2.2
     _ (by decide)⟩

/-! ## C1 — deterministic merge ordering -/

theorem fileRecs_lesson {f : SourceFile} {r : Rec} (h : r ∈ fileRecs f) :
    r.lesson_id = lessonOf f :=
  (mem_stampRows 0 f.rows h).1

theorem concat_pairwise (files : List SourceFile)
    (hnd : (files.map lessonOf).Nodup) :
    (concatRecs files).Pairwise
      (fun a b => a.lesson_id = b.lesson_id → a.source_row_index < b.source_row_index) := by
  unfold concatRecs
  rw [List.pairwise_flatten]
  constructor
  · intro chunk hchunk
    obtain ⟨f, hf, rfl⟩ := List.mem_map.mp hchunk
    refine (pairwise_stampRows (lessonOf f) 0 f.rows).imp ?_
    intro a b h _
    exact h
  · rw [List.pairwise_map]
    have hfiles : files.Pairwise (fun f g => lessonOf f ≠ lessonOf g) :=
      List.pairwise_map.mp hnd
    refine hfiles.imp_of_mem ?_
    intro f g hf hg hne
    intro a ha b hb heq
    exfalso
    apply hne
    rw [← fileRecs_lesson ha, ← fileRecs_lesson hb]
    exact heq

theorem concat_nodup (files : List SourceFile)
    (hnd : (files.map lessonOf).Nodup) :
    (concatRecs files).Nodup := by
  refine List.Pairwise.imp ?_ (concat_pairwise files hnd)
  intro a b hab heq
  have hlt := hab (by rw [heq])
  rw [heq] at hlt
  exact lt_irrefl _ hlt

theorem pandas_tie_to_key {a b : Rec}
    (hab : pandasLE a b)
    (h2 : pandasLE b a →
      (a.lesson_id = b.lesson_id → a.source_row_index < b.source_row_index)) :
    recKeyLT a b := by
  by_cases hba : pandasLE b a
  · have hQ := h2 hba
    rcases hab with h1 | ⟨h1, ht1⟩
    · rcases hba with hh | ⟨hh, _⟩
      · exact absurd hh (strLt_asymm h1)
      · exact absurd (by rw [hh] at h1; exact h1) (strLt_irrefl _)
    · rcases hba with hh | ⟨hh, ht2⟩
      · exact absurd (by rw [h1] at hh; exact hh) (strLt_irrefl _)
      · have hte : a.Turn_num = b.Turn_num := turnLE_antisymm ht1 ht2
        exact Or.inr ⟨h1, Or.inr ⟨hte, hQ h1⟩⟩
  · rcases hab with h1 | ⟨h1, ht1⟩
    · exact Or.inl h1
    · have hnt : ¬ turnLE b.Turn_num a.Turn_num := by
        intro hc
        exact hba (Or.inr ⟨h1.symm, hc⟩)
      exact Or.inr ⟨h1, Or.inl (turnLT_of_le_not_le ht1 hnt)⟩

theorem merged_pairwise (files : List SourceFile)
    (hnd : (files.map lessonOf).Nodup) :
    (merged files).Pairwise recKeyLT := by
  have h := pairwise_insertionSort_stable pandasLE pandasLE_total pandasLE_trans
    (concat_nodup files hnd) (concat_pairwise files hnd)
  exact h.imp (fun hab => pandas_tie_to_key hab.1 hab.2)

open List in
/-- C1: for pairwise-distinct lesson ids the merged dataset is strictly
sorted by `(lesson_id, Turn_num with missing last, source_row_index)`, is a
permutation of the concatenated input records (nothing is dropped), and is
the same list for every discovery order of the same files — the ordering is
stable and reproducible. -/
theorem C1_merged_sorted (files : List SourceFile)
    (hnd : (files.map lessonOf).Nodup) :
    (merged files).Pairwise recKeyLT ∧
    merged files ~ concatRecs files ∧
    ∀ files' : List SourceFile, files' ~ files → merged files' = merged files := by
  refine ⟨merged_pairwise files hnd, List.perm_insertionSort _ _, ?_⟩
  intro files' hperm
  have hnd' : (files'.map lessonOf).Nodup := ((hperm.map lessonOf).nodup_iff).mpr hnd
  have hp : merged files' ~ merged files := by
    calc merged files' ~ concatRecs files' := List.perm_insertionSort _ _
      _ ~ concatRecs files := (hperm.map fileRecs).flatten
      _ ~ merged files := (List.perm_insertionSort _ _).symm
  haveI : IsAntisymm Rec recKeyLT := ⟨fun _ _ h1 h2 => (recKeyLT_asymm h1 h2).elim⟩
  exact List.eq_of_perm_of_sorted hp (merged_pairwise files' hnd') (merged_pairwise files hnd)

/-- Witness for C1 on the spec's two-file scenario, including the concrete
merged order (lesson `L1` first, turns ascending, the unparsable turn of
`L2` last) and invariance under reversed discovery order. -/
theorem C1_merged_sorted_witness :
    ((wFiles.map lessonOf).Nodup) ∧
    (merged wFiles).Pairwise recKeyLT ∧
    merged wFiles.reverse = merged wFiles ∧
    (merged wFiles).map (fun r => (r.lesson_id, r.Turn_num, r.source_row_index)) =
      [("L1", some 4, 1), ("L1", some 5, 0),
       ("L2", some 1, 2), ("L2", some 2, 3), ("L2", some 3, 0), ("L2", none, 1)] :=
  ⟨by decide,
   (C1_merged_sorted wFiles (by decide)).1,
   (C1_merged_sorted wFiles (by decide)).2.2 wFiles.reverse (List.reverse_perm wFiles),
   by decide⟩

end EducDemo
